import Mathlib

/-!
Shallow embedding of the data-access core of the solar-challenge dashboard
(source module: src/data_loader.py) together with theorems checking the
natural-language specification against it.

Modelling conventions:
  * A pandas DataFrame is a column-name list plus a list of rows; each row
    carries its pandas index label (a natural number; freshly loaded frames
    use the default 0-based RangeIndex) and a list of cells aligned with the
    column list.
  * A cell is `Option Value`: `none` is the missing marker (NaN / NaT);
    `Value` tags numeric readings (exact rationals standing for the floats
    of the source), raw text, and temporal instants (datetimes modeled as
    integers on a linear time axis).
  * Filesystem state and the file reader are an explicit `Env` record:
    `pathExists` and `isFile` model `Path.exists` / `Path.is_file`;
    `read_csv` models `pandas.read_csv` (returning the error text of the
    raised exception on failure); `to_datetime_cell` models elementwise
    `pandas.to_datetime(_, errors="coerce")`, where `none` is a cell whose
    parse failed (coerced to NaT).
  * Exceptions raised by the source are modeled as `Except` values; the
    error constructors correspond to the two raise sites of
    `load_solar_data` and carry the exact message strings built there.
-/

namespace Solar

/-- A scalar cell value of a loaded table: a numeric reading, raw text, or a
temporal instant. -/
inductive Value where
  | num (q : ℚ)
  | str (s : String)
  | time (t : ℤ)
deriving DecidableEq

/-- A cell of a DataFrame; `none` models the missing marker (NaN / NaT). -/
abbrev Cell := Option Value

/-- A row: its pandas index label and its cells, aligned with the column list. -/
abbrev Row := Nat × List Cell

/-- A pandas DataFrame: column names plus labeled rows. -/
structure DataFrame where
  cols : List String
  rows : List Row
deriving DecidableEq

/-- The empty frame `pd.DataFrame()`. -/
def emptyFrame : DataFrame := DataFrame.mk [] []

/-- First position of column `c` in a column list (pandas label lookup). -/
def findCol (c : String) : List String → Option Nat
  | [] => none
  | x :: t => if x = c then some 0 else (findCol c t).map (fun i => i + 1)

/-- The cells of column `c` of `df` (empty when the column is absent). -/
def column (df : DataFrame) (c : String) : List Cell :=
  match findCol c df.cols with
  | none => []
  | some i => df.rows.map (fun r => r.2.getD i none)

/-- Filesystem and pandas environment the loader runs against. -/
structure Env where
  pathExists : String → Bool
  isFile : String → Bool
  read_csv : String → Except String DataFrame
  to_datetime_cell : Cell → Option ℤ

/-- Splits a character list on a separator, keeping empty pieces
(model of `str.split`). -/
def splitSep (sep : Char) : List Char → List (List Char)
  | [] => [[]]
  | c :: t =>
    let r := splitSep sep t
    if c = sep then [] :: r
    else
      match r with
      | [] => [[c]]
      | h :: t2 => (c :: h) :: t2

/-- The final component of a path (model of `pathlib.PurePath.name`):
the last nonempty piece of the string split on the separator. -/
def pathName (p : String) : String :=
  match ((splitSep '/' p.data).filter (fun c => !c.isEmpty)).getLast? with
  | some n => String.mk n
  | none => ""

/-- Index of the last occurrence of `c` in the list (model of `str.rfind`). -/
def rfindIdx (c : Char) : List Char → Option Nat
  | [] => none
  | a :: t =>
    match rfindIdx c t with
    | some i => some (i + 1)
    | none => if a = c then some 0 else none

/-- Model of `pathlib.PurePath.suffix`: the part of the name from its last
dot, empty when the dot is leading, trailing or absent. -/
def path_suffix (p : String) : String :=
  let name := (pathName p).data
  match rfindIdx '.' name with
  | some i => if 0 < i ∧ i + 1 < name.length then String.mk (name.drop i) else ""
  | none => ""

/-- ASCII lowercasing of a string (model of `str.lower` on the ASCII
extensions the loader compares against). -/
def lowerStr (s : String) : String := String.mk (s.data.map Char.toLower)

/-- Model of `validate_file_path`: checks emptiness, existence, regular-file
status and the extension, returning the `(is_valid, error_message)` pair the
source returns. -/
def validate_file_path (env : Env) (file_path : String) : Bool × String :=
  if file_path = "" then (false, "No file path provided")
  else if env.pathExists file_path = false then
    (false, "File does not exist: " ++ file_path)
  else if env.isFile file_path = false then
    (false, "Path is not a file: " ++ file_path)
  else if ¬ (lowerStr (path_suffix file_path) ∈ [".csv", ".txt"]) then
    (false, "File must be a CSV file, got: " ++ path_suffix file_path)
  else (true, "")

/-- The two exception shapes `load_solar_data` can raise: the
`FileNotFoundError(error_msg)` rethrow of a validation failure, and the
catch-all `Exception(f"Error loading CSV file: {e}")` around the read. -/
inductive LoadError where
  | fileNotFoundError (msg : String)
  | exception (msg : String)
deriving DecidableEq

/-- Model of the timestamp coercion step of `load_solar_data`:
`df["Timestamp"] = pd.to_datetime(df["Timestamp"], errors="coerce")`.
Every cell of the `Timestamp` column is replaced by its parse result, with
parse failures becoming the missing marker; all other cells and all row
labels are untouched. -/
def parse_timestamp_col (env : Env) (df : DataFrame) : DataFrame :=
  match findCol "Timestamp" df.cols with
  | none => df
  | some i =>
    DataFrame.mk df.cols
      (df.rows.map (fun r =>
        (r.1, r.2.set i ((env.to_datetime_cell (r.2.getD i none)).map Value.time))))

/-- Model of `load_solar_data`: validates the path, rethrows a validation
failure as `FileNotFoundError(error_msg)`, reads the file, coerces the
`Timestamp` column when asked to and it exists, and wraps any read failure
in the catch-all exception message. -/
def load_solar_data (env : Env) (file_path : String) (parse_dates : Bool) :
    Except LoadError DataFrame :=
  let v := validate_file_path env file_path
  if v.1 = true then
    match env.read_csv file_path with
    | Except.error e =>
      Except.error (LoadError.exception ("Error loading CSV file: " ++ e))
    | Except.ok df =>
      if parse_dates = true ∧ "Timestamp" ∈ df.cols then
        Except.ok (parse_timestamp_col env df)
      else Except.ok df
  else Except.error (LoadError.fileNotFoundError v.2)

/-- The fixed `potential_metrics` list of `get_available_metrics`
(the Schema Catalog). -/
def potential_metrics : List String :=
  ["GHI", "DNI", "DHI", "Tamb", "RH", "WS", "WSgust",
   "ModA", "ModB", "BP", "Precipitation"]

/-- Model of `get_available_metrics`: catalog names present in the frame,
in catalog order. -/
def get_available_metrics (df : DataFrame) : List String :=
  potential_metrics.filter (fun col => decide (col ∈ df.cols))

/-- The temporal content of a cell: `some t` for a parsed instant, `none`
for the missing marker. In the source the `Timestamp` column is a
datetime64 series, so a cell is an instant or NaT; a cell holding anything
else is treated as missing. -/
def timeVal (c : Cell) : Option ℤ :=
  match c with
  | some (Value.time t) => some t
  | _ => none

/-- The non-null instants of the `Timestamp` column of `df`. -/
def timestamps (df : DataFrame) : List ℤ :=
  (column df "Timestamp").filterMap timeVal

/-- Skip-missing minimum of a series (model of `Series.min`): `none` on an
empty list of values, as pandas returns the missing marker there. -/
def seriesMin {α : Type} [LinearOrder α] (l : List α) : Option α :=
  match l with
  | [] => none
  | a :: t => some (t.foldl min a)

/-- Skip-missing maximum of a series (model of `Series.max`). -/
def seriesMax {α : Type} [LinearOrder α] (l : List α) : Option α :=
  match l with
  | [] => none
  | a :: t => some (t.foldl max a)

/-- Model of `get_date_range`: `(None, None)` without a `Timestamp` column,
else the skip-missing minimum and maximum of that column (the missing
marker, modeled `none`, when every value is missing). -/
def get_date_range (df : DataFrame) : Option ℤ × Option ℤ :=
  if "Timestamp" ∈ df.cols then (seriesMin (timestamps df), seriesMax (timestamps df))
  else (none, none)

/-- Whether a `Timestamp` cell passes the mask
`(ts >= start) & (ts <= end)` of `filter_by_date_range`: comparisons with
the missing marker are false, so missing cells are dropped. -/
def in_range (start_date end_date : ℤ) (c : Cell) : Bool :=
  match c with
  | some (Value.time t) => decide (start_date ≤ t) && decide (t ≤ end_date)
  | _ => false

/-- Model of `filter_by_date_range`: identity without a `Timestamp` column,
else the rows whose timestamp passes the inclusive range mask. Bounds are
already instants (the source coerces them with `pd.to_datetime` first). -/
def filter_by_date_range (df : DataFrame) (start_date end_date : ℤ) : DataFrame :=
  match findCol "Timestamp" df.cols with
  | none => df
  | some i =>
    DataFrame.mk df.cols
      (df.rows.filter (fun r => in_range start_date end_date (r.2.getD i none)))

/-- The numeric content of a cell; in the source a metric column is a
numeric series where missing values are NaN, so a cell holding anything
non-numeric is treated as missing. -/
def numVal (c : Cell) : Option ℚ :=
  match c with
  | some (Value.num q) => some q
  | _ => none

/-- The non-null numeric values of column `c` of `df`. -/
def numsOf (df : DataFrame) (c : String) : List ℚ :=
  (column df c).filterMap numVal

/-- Skip-missing mean of a series (model of `Series.mean`): the missing
marker on an empty value list. -/
def listMean (l : List ℚ) : Option ℚ :=
  if l.length = 0 then none else some (l.sum / (l.length : ℚ))

/-- Skip-missing median of a series (model of `Series.median`): middle of
the sorted values, or the average of the two middles for an even count. -/
def listMedian (l : List ℚ) : Option ℚ :=
  let s := List.insertionSort (fun a b => a ≤ b) l
  if s.length = 0 then none
  else if s.length % 2 = 1 then some (s.getD (s.length / 2) 0)
  else some ((s.getD (s.length / 2 - 1) 0 + s.getD (s.length / 2) 0) / 2)

/-- The square of the skip-missing sample standard deviation of a series,
i.e. the sample variance with divisor `n - 1` (model of `Series.std`, which
is its nonnegative square root; the square is used so the model stays in
exact rational arithmetic). Fewer than two values give the missing marker,
as `std` with `ddof=1` is NaN there. -/
def listVar (l : List ℚ) : Option ℚ :=
  if l.length ≤ 1 then none
  else
    let m := l.sum / (l.length : ℚ)
    some (((l.map (fun x => (x - m) ^ 2)).sum) / ((l.length : ℚ) - 1))

/-- One record of the summary-statistics table of `get_summary_statistics`:
the `std_sq` field carries the square of the `Std Dev` entry (see
`listVar`). -/
structure Stats where
  mean : Option ℚ
  median : Option ℚ
  std_sq : Option ℚ
  min : Option ℚ
  max : Option ℚ
  count : Nat
deriving DecidableEq

/-- Model of `get_summary_statistics`: one record per requested metric that
is present as a column, with the skip-missing statistics of that column;
absent metrics are skipped. The source builds a dict keyed by metric and
transposes it into a frame; the association list keeps the same content. -/
def get_summary_statistics (df : DataFrame) (metrics : List String) :
    List (String × Stats) :=
  metrics.filterMap (fun metric =>
    if metric ∈ df.cols then
      some (metric,
        Stats.mk (listMean (numsOf df metric)) (listMedian (numsOf df metric))
          (listVar (numsOf df metric)) (seriesMin (numsOf df metric))
          (seriesMax (numsOf df metric)) (numsOf df metric).length)
    else none)

/-- The numeric metric value of an original-position-annotated row, used as
the ranking key of `get_top_hours` (`mi` is the metric column position). -/
def keyOf (mi : Nat) (p : Nat × Row) : ℚ := (numVal (p.2.2.getD mi none)).getD 0

/-- The ranking preorder of `df.nlargest(top_n, metric)` with its default
`keep="first"` policy: larger metric value first, ties by original
position. Sorting by this total preorder is exactly the stable descending
sort nlargest performs. -/
def nlargestRel (mi : Nat) (a b : Nat × Row) : Prop :=
  keyOf mi b < keyOf mi a ∨ (keyOf mi a = keyOf mi b ∧ a.1 ≤ b.1)

instance (mi : Nat) : DecidableRel (nlargestRel mi) := fun a b => by
  unfold nlargestRel; exact inferInstance

instance (mi : Nat) : IsTotal (Nat × Row) (nlargestRel mi) := by
  constructor
  intro a b
  rcases lt_trichotomy (keyOf mi a) (keyOf mi b) with h | h | h
  · exact Or.inr (Or.inl h)
  · rcases Nat.le_total a.1 b.1 with hp | hp
    · exact Or.inl (Or.inr ⟨h, hp⟩)
    · exact Or.inr (Or.inr ⟨h.symm, hp⟩)
  · exact Or.inl (Or.inl h)

instance (mi : Nat) : IsTrans (Nat × Row) (nlargestRel mi) := by
  constructor
  intro a b c hab hbc
  rcases hab with hab | ⟨hab, pab⟩
  · rcases hbc with hbc | ⟨hbc, _⟩
    · exact Or.inl (lt_trans hbc hab)
    · exact Or.inl (hbc ▸ hab)
  · rcases hbc with hbc | ⟨hbc, pbc⟩
    · exact Or.inl (hab.symm ▸ hbc)
    · exact Or.inr ⟨hab.trans hbc, pab.trans pbc⟩

/-- The rows of `df` whose metric cell (at column position `mi`) is
non-null, annotated with their original positions: the candidate pool of
`nlargest`, which never selects NaN values. -/
def nonNullRows (mi : Nat) (df : DataFrame) : List (Nat × Row) :=
  df.rows.enum.filter (fun p => (numVal (p.2.2.getD mi none)).isSome)

/-- Model of `DataFrame.reset_index(drop=True)`: row labels become a fresh
0-based sequence. -/
def reset_index (rows : List Row) : List Row :=
  rows.enum.map (fun p => (p.1, p.2.2))

/-- Model of `get_top_hours`: the empty frame when the metric or the
`Timestamp` column is absent; otherwise `nlargest` (stable descending sort
of the non-null-metric rows, truncated to `top_n`), restriction to the
`(Timestamp, metric)` columns, and an index reset. -/
def get_top_hours (df : DataFrame) (metric : String) (top_n : Nat) : DataFrame :=
  match findCol metric df.cols, findCol "Timestamp" df.cols with
  | some mi, some ti =>
    let sorted := List.insertionSort (nlargestRel mi) (nonNullRows mi df)
    let top := (sorted.take top_n).map
      (fun p => (p.2.1, [p.2.2.getD ti none, p.2.2.getD mi none]))
    DataFrame.mk ["Timestamp", metric] (reset_index top)
  | _, _ => emptyFrame

/-- The specification-side reading of the range mask of
`filter_by_date_range`: the cell holds an instant lying inclusively between
the bounds. -/
def tsInRange (start_date end_date : ℤ) (c : Cell) : Prop :=
  ∃ t : ℤ, c = some (Value.time t) ∧ start_date ≤ t ∧ t ≤ end_date

instance (start_date end_date : ℤ) (c : Cell) :
    Decidable (tsInRange start_date end_date c) :=
  match c with
  | some (Value.time t) =>
    if h : start_date ≤ t ∧ t ≤ end_date then
      Decidable.isTrue ⟨t, rfl, h.1, h.2⟩
    else
      Decidable.isFalse (by
        rintro ⟨u, hu, h1, h2⟩
        injection hu with hv
        injection hv with ht
        exact h ⟨ht ▸ h1, ht ▸ h2⟩)
  | some (Value.num q) => Decidable.isFalse (by rintro ⟨u, hu, _, _⟩; simp at hu)
  | some (Value.str s) => Decidable.isFalse (by rintro ⟨u, hu, _, _⟩; simp at hu)
  | none => Decidable.isFalse (by rintro ⟨u, hu, _, _⟩; simp at hu)

/-- The specification-side strict ranking order of the top-N table: strictly
larger metric value first, ties strictly by first-seen (original position)
order. -/
def rankedBefore (mi : Nat) (a b : Nat × Row) : Prop :=
  ∃ qa qb, numVal (a.2.2.getD mi none) = some qa ∧
    numVal (b.2.2.getD mi none) = some qb ∧
    (qb < qa ∨ (qa = qb ∧ a.1 < b.1))

/-- Concrete state where no path exists. -/
def envAbsent : Env :=
  Env.mk (fun _ => false) (fun _ => false) (fun _ => Except.error "io error")
    (fun _ => none)

/-- Concrete state where every path exists but is a directory. -/
def envDir : Env :=
  Env.mk (fun _ => true) (fun _ => false) (fun _ => Except.error "io error")
    (fun _ => none)

/-- Concrete state where every path is a regular file but reading it fails. -/
def envReadFail : Env :=
  Env.mk (fun _ => true) (fun _ => true) (fun _ => Except.error "disk error")
    (fun _ => none)

/-- Concrete raw frame as read from disk, before timestamp coercion: one
parseable and one malformed timestamp string. -/
def dfRaw : DataFrame :=
  DataFrame.mk ["Timestamp", "GHI"]
    [(0, [some (Value.str "2021-08-09 00:00"), some (Value.num 1)]),
     (1, [some (Value.str "not a date"), some (Value.num 2)])]

/-- Concrete state where every path is a readable regular file holding
`dfRaw`, and only the string "2021-08-09 00:00" parses as a datetime. -/
def envParse : Env :=
  Env.mk (fun _ => true) (fun _ => true) (fun _ => Except.ok dfRaw)
    (fun c =>
      match c with
      | some (Value.str s) => if s = "2021-08-09 00:00" then some 42 else none
      | _ => none)

/-- Concrete frame without a `Timestamp` column. -/
def dfNoTs : DataFrame := DataFrame.mk ["GHI"] [(0, [some (Value.num 3)])]

/-- Concrete frame with no Schema Catalog column at all. -/
def dfNoCat : DataFrame := DataFrame.mk ["Foo"] [(0, [some (Value.str "x")])]

/-- Concrete frame with a `Timestamp` column holding two instants and one
missing value. -/
def dfTs : DataFrame :=
  DataFrame.mk ["Timestamp"]
    [(0, [some (Value.time 1)]), (1, [some (Value.time 5)]), (2, [none])]

/-- The four-row example frame of the specification's top-hours property:
values 5, 9, 9, 1 at instants 1..4. -/
def dfTop : DataFrame :=
  DataFrame.mk ["Timestamp", "GHI"]
    [(0, [some (Value.time 1), some (Value.num 5)]),
     (1, [some (Value.time 2), some (Value.num 9)]),
     (2, [some (Value.time 3), some (Value.num 9)]),
     (3, [some (Value.time 4), some (Value.num 1)])]

/-- The specification's metric-column example: values 10, 20, 30. -/
def dfEx3 : DataFrame :=
  DataFrame.mk ["GHI"]
    [(0, [some (Value.num 10)]), (1, [some (Value.num 20)]),
     (2, [some (Value.num 30)])]

/-- The statistics record `get_summary_statistics` builds for the `GHI`
column of `dfEx3`. -/
def statsEx3 : Stats :=
  Stats.mk (listMean (numsOf dfEx3 "GHI")) (listMedian (numsOf dfEx3 "GHI"))
    (listVar (numsOf dfEx3 "GHI")) (seriesMin (numsOf dfEx3 "GHI"))
    (seriesMax (numsOf dfEx3 "GHI")) (numsOf dfEx3 "GHI").length

/-- `findCol` misses exactly the absent column names. -/
theorem findCol_eq_none {c : String} {l : List String} :
    findCol c l = none ↔ c ∉ l := by
  induction l with
  | nil => simp [findCol]
  | cons x t ih =>
    by_cases h : x = c
    · subst h; simp [findCol]
    · simp [findCol, h, Option.map_eq_none', ih, Ne.symm h]

/-- A present column name has a `findCol` position. -/
theorem findCol_mem {c : String} {l : List String} (h : c ∈ l) :
    ∃ i, findCol c l = some i := by
  cases hf : findCol c l with
  | none => exact absurd h (findCol_eq_none.mp hf)
  | some i => exact ⟨i, rfl⟩

/-- Exhaustive case list for `validate_file_path`: it always returns, and
always one of the five source outcomes. -/
theorem validate_file_path_cases (env : Env) (path : String) :
    validate_file_path env path = (true, "") ∨
    validate_file_path env path = (false, "No file path provided") ∨
    validate_file_path env path = (false, "File does not exist: " ++ path) ∨
    validate_file_path env path = (false, "Path is not a file: " ++ path) ∨
    validate_file_path env path =
      (false, "File must be a CSV file, got: " ++ path_suffix path) := by
  unfold validate_file_path
  by_cases h1 : path = ""
  · simp [h1]
  by_cases h2 : env.pathExists path = false
  · simp [h1, h2]
  by_cases h3 : env.isFile path = false
  · simp [h1, h2, h3]
  by_cases h4 : lowerStr (path_suffix path) ∈ [".csv", ".txt"]
  · simp [h1, h2, h3, h4]
  · simp [h1, h2, h3, h4]

/-- A string with a nonempty left part is nonempty. -/
theorem append_ne_empty_of_left_ne (s t : String) (h : s ≠ "") : s ++ t ≠ "" := by
  intro he
  apply h
  cases s with
  | mk d =>
    cases t with
    | mk d2 =>
      have hd : d ++ d2 = [] := congrArg String.data he
      have h1 : d = [] := (List.append_eq_nil.mp hd).1
      rw [h1]

/-- C8: for every filesystem state and path string, `validate_file_path`
fails with the InvalidPath reason on an empty path, the NotFound reason on
a missing path, the NotAFile reason on a path that is not a regular file,
and the UnsupportedExtension reason when the case-folded extension is not
csv or txt; otherwise it succeeds; every failure carries a nonempty
human-readable reason, and the function is total (it never raises). -/
theorem claim_C8 (env : Env) (path : String) :
    (path = "" → validate_file_path env path = (false, "No file path provided")) ∧
    (path ≠ "" → env.pathExists path = false →
      validate_file_path env path = (false, "File does not exist: " ++ path)) ∧
    (path ≠ "" → env.pathExists path = true → env.isFile path = false →
      validate_file_path env path = (false, "Path is not a file: " ++ path)) ∧
    (path ≠ "" → env.pathExists path = true → env.isFile path = true →
      lowerStr (path_suffix path) ∉ [".csv", ".txt"] →
      validate_file_path env path =
        (false, "File must be a CSV file, got: " ++ path_suffix path)) ∧
    (path ≠ "" → env.pathExists path = true → env.isFile path = true →
      lowerStr (path_suffix path) ∈ [".csv", ".txt"] →
      validate_file_path env path = (true, "")) ∧
    ((validate_file_path env path).1 = false → (validate_file_path env path).2 ≠ "") := by
  refine ⟨?_, ?_, ?_, ?_, ?_, ?_⟩
  · intro h; subst h; rfl
  · intro h1 h2; simp [validate_file_path, h1, h2]
  · intro h1 h2 h3; simp [validate_file_path, h1, h2, h3]
  · intro h1 h2 h3 h4; simp [validate_file_path, h1, h2, h3, h4]
  · intro h1 h2 h3 h4; simp [validate_file_path, h1, h2, h3, h4]
  · rcases validate_file_path_cases env path with h | h | h | h | h <;>
      rw [h] <;> simp <;>
      exact append_ne_empty_of_left_ne _ _ (by decide)

/-- Witness for C8: the NotFound reason on a missing path, the NotAFile
reason on a directory, and the empty-path reason, each at concrete
inputs. -/
theorem claim_C8_witness :
    validate_file_path envAbsent "data.csv" =
      (false, "File does not exist: " ++ "data.csv") ∧
    validate_file_path envDir "data.csv" =
      (false, "Path is not a file: " ++ "data.csv") ∧
    validate_file_path envReadFail "" = (false, "No file path provided") :=
  ⟨(claim_C8 envAbsent "data.csv").2.1 (by decide) rfl,
   (claim_C8 envDir "data.csv").2.2.1 (by decide) rfl rfl,
   (claim_C8 envReadFail "").1 rfl⟩

/-- C10: the extension check of `validate_file_path` is case-insensitive —
any existing regular file whose extension case-folds to csv or txt
validates successfully. -/
theorem claim_C10 (env : Env) (path : String)
    (h1 : env.pathExists path = true) (h2 : env.isFile path = true)
    (h3 : lowerStr (path_suffix path) ∈ [".csv", ".txt"]) :
    validate_file_path env path = (true, "") := by
  have hne : path ≠ "" := by
    intro h
    subst h
    exact absurd h3 (by decide)
  simp [validate_file_path, hne, h1, h2, h3]

/-- Witness for C10: a `.CSV` and a `.Txt` file validate. -/
theorem claim_C10_witness :
    validate_file_path envReadFail "data.CSV" = (true, "") ∧
    validate_file_path envReadFail "notes.Txt" = (true, "") :=
  ⟨claim_C10 envReadFail "data.CSV" rfl rfl (by decide),
   claim_C10 envReadFail "notes.Txt" rfl rfl (by decide)⟩

/-- C1: every failure of `load_solar_data` is one of the typed conditions —
the InvalidPath-class rethrows identifying the empty-path, NotFound,
NotAFile and UnsupportedExtension validation failures by their wrapped
reason, and the LoadFailure wrap of a read error — and nothing else: the
function is total and its error values are exhaustively enumerated, so no
failure is an uncontrolled crash with an untyped error. -/
theorem claim_C1 (env : Env) (path : String) (parse_dates : Bool) :
    (path = "" → load_solar_data env path parse_dates =
      Except.error (LoadError.fileNotFoundError "No file path provided")) ∧
    (path ≠ "" → env.pathExists path = false →
      load_solar_data env path parse_dates =
        Except.error (LoadError.fileNotFoundError ("File does not exist: " ++ path))) ∧
    (path ≠ "" → env.pathExists path = true → env.isFile path = false →
      load_solar_data env path parse_dates =
        Except.error (LoadError.fileNotFoundError ("Path is not a file: " ++ path))) ∧
    (path ≠ "" → env.pathExists path = true → env.isFile path = true →
      lowerStr (path_suffix path) ∉ [".csv", ".txt"] →
      load_solar_data env path parse_dates =
        Except.error (LoadError.fileNotFoundError
          ("File must be a CSV file, got: " ++ path_suffix path))) ∧
    (∀ e, (validate_file_path env path).1 = true →
      env.read_csv path = Except.error e →
      load_solar_data env path parse_dates =
        Except.error (LoadError.exception ("Error loading CSV file: " ++ e))) ∧
    (∀ err, load_solar_data env path parse_dates = Except.error err →
      err = LoadError.fileNotFoundError "No file path provided" ∨
      err = LoadError.fileNotFoundError ("File does not exist: " ++ path) ∨
      err = LoadError.fileNotFoundError ("Path is not a file: " ++ path) ∨
      err = LoadError.fileNotFoundError
        ("File must be a CSV file, got: " ++ path_suffix path) ∨
      ∃ m, err = LoadError.exception ("Error loading CSV file: " ++ m)) := by
  refine ⟨?_, ?_, ?_, ?_, ?_, ?_⟩
  · intro h
    subst h
    rfl
  · intro h1 h2
    simp [load_solar_data, validate_file_path, h1, h2]
  · intro h1 h2 h3
    simp [load_solar_data, validate_file_path, h1, h2, h3]
  · intro h1 h2 h3 h4
    simp [load_solar_data, validate_file_path, h1, h2, h3, h4]
  · intro e hv hr
    have hv2 : validate_file_path env path = (true, "") := by
      rcases validate_file_path_cases env path with h | h | h | h | h <;>
        rw [h] at hv ⊢ <;> simp_all
    simp [load_solar_data, hv2, hr]
  · intro err h
    rcases validate_file_path_cases env path with hv | hv | hv | hv | hv
    · cases hr : env.read_csv path with
      | error e =>
        simp [load_solar_data, hv, hr] at h
        exact Or.inr (Or.inr (Or.inr (Or.inr ⟨e, h.symm⟩)))
      | ok df =>
        by_cases hp : parse_dates = true ∧ "Timestamp" ∈ df.cols
        · simp [load_solar_data, hv, hr, hp] at h
        · simp [load_solar_data, hv, hr, hp] at h
    · simp [load_solar_data, hv] at h
      exact Or.inl h.symm
    · simp [load_solar_data, hv] at h
      exact Or.inr (Or.inl h.symm)
    · simp [load_solar_data, hv] at h
      exact Or.inr (Or.inr (Or.inl h.symm))
    · simp [load_solar_data, hv] at h
      exact Or.inr (Or.inr (Or.inr (Or.inl h.symm)))

/-- Witness for C1: a missing path loads as the NotFound condition, a
directory as the NotAFile condition, a json file as the
UnsupportedExtension condition, and a failing read as the LoadFailure
condition, at concrete inputs. -/
theorem claim_C1_witness :
    load_solar_data envAbsent "data.csv" true =
      Except.error (LoadError.fileNotFoundError ("File does not exist: " ++ "data.csv")) ∧
    load_solar_data envDir "data.csv" true =
      Except.error (LoadError.fileNotFoundError ("Path is not a file: " ++ "data.csv")) ∧
    load_solar_data envReadFail "data.json" true =
      Except.error (LoadError.fileNotFoundError
        ("File must be a CSV file, got: " ++ path_suffix "data.json")) ∧
    load_solar_data envReadFail "data.csv" true =
      Except.error (LoadError.exception ("Error loading CSV file: " ++ "disk error")) :=
  ⟨(claim_C1 envAbsent "data.csv" true).2.1 (by decide) rfl,
   (claim_C1 envDir "data.csv" true).2.2.1 (by decide) rfl rfl,
   (claim_C1 envReadFail "data.json" true).2.2.2.1 (by decide) rfl rfl (by decide),
   (claim_C1 envReadFail "data.csv" true).2.2.2.2.1 "disk error" (by decide) rfl⟩

/-- The range mask of the source equals the specification-side reading of
it, cell by cell. -/
theorem in_range_eq_decide_tsInRange (start_date end_date : ℤ) (c : Cell) :
    in_range start_date end_date c = decide (tsInRange start_date end_date c) := by
  rcases c with _ | v
  · simp [in_range, tsInRange]
  rcases v with q | s0 | t
  · simp [in_range, tsInRange]
  · simp [in_range, tsInRange]
  · show (decide (start_date ≤ t) && decide (t ≤ end_date)) =
      decide (tsInRange start_date end_date (some (Value.time t)))
    by_cases h1 : start_date ≤ t
    · by_cases h2 : t ≤ end_date
      · have hp : tsInRange start_date end_date (some (Value.time t)) :=
          ⟨t, rfl, h1, h2⟩
        simp [h1, h2, hp]
      · have hp : ¬ tsInRange start_date end_date (some (Value.time t)) := by
          rintro ⟨u, hu, hh1, hh2⟩
          injection hu with hv
          injection hv with ht
          subst ht
          exact h2 hh2
        simp [h1, h2, hp]
    · have hp : ¬ tsInRange start_date end_date (some (Value.time t)) := by
        rintro ⟨u, hu, hh1, hh2⟩
        injection hu with hv
        injection hv with ht
        subst ht
        exact h1 hh1
      simp [h1, hp]

/-- C4: with a `Timestamp` column and ordered bounds, `filter_by_date_range`
keeps exactly the rows whose timestamp is a non-null instant inclusively
between the bounds, preserving the column list; without a `Timestamp`
column it returns the identical dataset. -/
theorem claim_C4 (df : DataFrame) (start_date end_date : ℤ) :
    ("Timestamp" ∉ df.cols → filter_by_date_range df start_date end_date = df) ∧
    (start_date ≤ end_date → ∀ i, findCol "Timestamp" df.cols = some i →
      (filter_by_date_range df start_date end_date).cols = df.cols ∧
      (filter_by_date_range df start_date end_date).rows =
        df.rows.filter
          (fun r => decide (tsInRange start_date end_date (r.2.getD i none)))) := by
  constructor
  · intro h
    have hn : findCol "Timestamp" df.cols = none := findCol_eq_none.mpr h
    simp [filter_by_date_range, hn]
  · intro _ i hi
    have hfun : (fun r : Row => in_range start_date end_date (r.2.getD i none)) =
        (fun r : Row => decide (tsInRange start_date end_date (r.2.getD i none))) :=
      funext fun r => in_range_eq_decide_tsInRange start_date end_date (r.2.getD i none)
    constructor
    · simp [filter_by_date_range, hi]
    · simp only [filter_by_date_range, hi]
      rw [hfun]

/-- Witness for C4: a frame without `Timestamp` is returned identically; on
a frame with instants 1 and 5 and a missing value, the bounds 0..3 keep
exactly the row at instant 1. -/
theorem claim_C4_witness :
    filter_by_date_range dfNoTs 0 3 = dfNoTs ∧
    (filter_by_date_range dfTs 0 3).rows =
      dfTs.rows.filter (fun r => decide (tsInRange 0 3 (r.2.getD 0 none))) ∧
    filter_by_date_range dfTs 0 3 =
      DataFrame.mk ["Timestamp"] [(0, [some (Value.time 1)])] :=
  ⟨(claim_C4 dfNoTs 0 3).1 (by decide),
   ((claim_C4 dfTs 0 3).2 (by decide) 0 rfl).2,
   by decide⟩

/-- C5: filtering by the same bounds twice equals filtering once. -/
theorem claim_C5 (df : DataFrame) (start_date end_date : ℤ) :
    filter_by_date_range (filter_by_date_range df start_date end_date)
        start_date end_date =
      filter_by_date_range df start_date end_date := by
  cases hf : findCol "Timestamp" df.cols with
  | none => simp [filter_by_date_range, hf]
  | some i =>
    simp only [filter_by_date_range, hf]
    rw [List.filter_filter]
    simp

/-- `foldl min` is bounded by its initial value. -/
theorem foldl_min_le_init {α : Type} [LinearOrder α] (t : List α) (a : α) :
    t.foldl min a ≤ a := by
  induction t generalizing a with
  | nil => exact le_refl a
  | cons b t2 ih => exact le_trans (ih (min a b)) (min_le_left a b)

/-- `foldl min` is bounded by every list member. -/
theorem foldl_min_le_mem {α : Type} [LinearOrder α] (t : List α) (a x : α)
    (hx : x ∈ t) : t.foldl min a ≤ x := by
  induction t generalizing a with
  | nil => cases hx
  | cons b t2 ih =>
    rcases List.mem_cons.mp hx with h | h
    · subst h
      exact le_trans (foldl_min_le_init t2 (min a x)) (min_le_right a x)
    · exact ih (min a b) h

/-- `foldl min` is the initial value or a list member. -/
theorem foldl_min_mem {α : Type} [LinearOrder α] (t : List α) (a : α) :
    t.foldl min a = a ∨ t.foldl min a ∈ t := by
  induction t generalizing a with
  | nil => exact Or.inl rfl
  | cons b t2 ih =>
    rcases ih (min a b) with h | h
    · rcases min_choice a b with hm | hm
      · exact Or.inl (h.trans hm)
      · exact Or.inr (List.mem_cons.mpr (Or.inl (h.trans hm)))
    · exact Or.inr (List.mem_cons.mpr (Or.inr h))

/-- `foldl max` dominates its initial value. -/
theorem le_foldl_max_init {α : Type} [LinearOrder α] (t : List α) (a : α) :
    a ≤ t.foldl max a := by
  induction t generalizing a with
  | nil => exact le_refl a
  | cons b t2 ih => exact le_trans (le_max_left a b) (ih (max a b))

/-- `foldl max` dominates every list member. -/
theorem le_foldl_max_mem {α : Type} [LinearOrder α] (t : List α) (a x : α)
    (hx : x ∈ t) : x ≤ t.foldl max a := by
  induction t generalizing a with
  | nil => cases hx
  | cons b t2 ih =>
    rcases List.mem_cons.mp hx with h | h
    · subst h
      exact le_trans (le_max_right a x) (le_foldl_max_init t2 (max a x))
    · exact ih (max a b) h

/-- `foldl max` is the initial value or a list member. -/
theorem foldl_max_mem {α : Type} [LinearOrder α] (t : List α) (a : α) :
    t.foldl max a = a ∨ t.foldl max a ∈ t := by
  induction t generalizing a with
  | nil => exact Or.inl rfl
  | cons b t2 ih =>
    rcases ih (max a b) with h | h
    · rcases max_choice a b with hm | hm
      · exact Or.inl (h.trans hm)
      · exact Or.inr (List.mem_cons.mpr (Or.inl (h.trans hm)))
    · exact Or.inr (List.mem_cons.mpr (Or.inr h))

/-- On a nonempty value list, `seriesMin` returns a member below every
member. -/
theorem seriesMin_spec {α : Type} [LinearOrder α] (l : List α) (hl : l ≠ []) :
    ∃ m, seriesMin l = some m ∧ m ∈ l ∧ ∀ x ∈ l, m ≤ x := by
  cases l with
  | nil => exact absurd rfl hl
  | cons a t =>
    refine ⟨t.foldl min a, rfl, ?_, ?_⟩
    · rcases foldl_min_mem t a with h | h
      · rw [h]; exact List.mem_cons_self a t
      · exact List.mem_cons.mpr (Or.inr h)
    · intro x hx
      rcases List.mem_cons.mp hx with h | h
      · subst h; exact foldl_min_le_init t x
      · exact foldl_min_le_mem t a x h

/-- On a nonempty value list, `seriesMax` returns a member above every
member. -/
theorem seriesMax_spec {α : Type} [LinearOrder α] (l : List α) (hl : l ≠ []) :
    ∃ m, seriesMax l = some m ∧ m ∈ l ∧ ∀ x ∈ l, x ≤ m := by
  cases l with
  | nil => exact absurd rfl hl
  | cons a t =>
    refine ⟨t.foldl max a, rfl, ?_, ?_⟩
    · rcases foldl_max_mem t a with h | h
      · rw [h]; exact List.mem_cons_self a t
      · exact List.mem_cons.mpr (Or.inr h)
    · intro x hx
      rcases List.mem_cons.mp hx with h | h
      · subst h; exact le_foldl_max_init t x
      · exact le_foldl_max_mem t a x h

/-- C6: `get_date_range` returns `(none, none)` without a `Timestamp`
column, and when every value of an existing `Timestamp` column is null;
otherwise it returns the minimum and maximum of the non-null instants, so
every non-null timestamp lies inclusively between them. -/
theorem claim_C6 (df : DataFrame) :
    ("Timestamp" ∉ df.cols → get_date_range df = (none, none)) ∧
    ("Timestamp" ∈ df.cols → (∀ c ∈ column df "Timestamp", c = none) →
      get_date_range df = (none, none)) ∧
    ("Timestamp" ∈ df.cols → timestamps df ≠ [] →
      ∃ lo hi, get_date_range df = (some lo, some hi) ∧
        lo ∈ timestamps df ∧ hi ∈ timestamps df ∧
        ∀ t ∈ timestamps df, lo ≤ t ∧ t ≤ hi) := by
  refine ⟨?_, ?_, ?_⟩
  · intro h
    simp [get_date_range, h]
  · intro h hall
    have hts : timestamps df = [] := by
      apply List.filterMap_eq_nil_iff.mpr
      intro c hc
      rw [hall c hc]
      rfl
    simp [get_date_range, h, hts, seriesMin, seriesMax]
  · intro h hne
    obtain ⟨lo, hlo, hlom, hlole⟩ := seriesMin_spec (timestamps df) hne
    obtain ⟨hi, hhi, hhim, hhile⟩ := seriesMax_spec (timestamps df) hne
    refine ⟨lo, hi, ?_, hlom, hhim, fun t ht => ⟨hlole t ht, hhile t ht⟩⟩
    simp [get_date_range, h, hlo, hhi]

/-- Witness for C6: `(none, none)` on a frame without `Timestamp`; on a
frame with instants 1 and 5 and a missing value, the bounds exist, are
instants of the column, and enclose every instant; concretely the range is
`(1, 5)`. -/
theorem claim_C6_witness :
    get_date_range dfNoTs = (none, none) ∧
    (∃ lo hi, get_date_range dfTs = (some lo, some hi) ∧
      lo ∈ timestamps dfTs ∧ hi ∈ timestamps dfTs ∧
      ∀ t ∈ timestamps dfTs, lo ≤ t ∧ t ≤ hi) ∧
    get_date_range dfTs = (some 1, some 5) :=
  ⟨(claim_C6 dfNoTs).1 (by decide),
   (claim_C6 dfTs).2.2 (by decide) (by decide),
   by decide⟩

/-- C7: `get_available_metrics` returns a subsequence of the fixed catalog
(hence in catalog order), containing exactly the catalog names present as
columns; a frame with no catalog column yields the empty list. -/
theorem claim_C7 (df : DataFrame) :
    (get_available_metrics df).Sublist potential_metrics ∧
    (∀ m ∈ get_available_metrics df, m ∈ potential_metrics ∧ m ∈ df.cols) ∧
    (∀ m ∈ potential_metrics, m ∈ df.cols → m ∈ get_available_metrics df) ∧
    ((∀ m ∈ potential_metrics, m ∉ df.cols) → get_available_metrics df = []) := by
  refine ⟨List.filter_sublist _, ?_, ?_, ?_⟩
  · intro m hm
    have h := List.mem_filter.mp hm
    exact ⟨h.1, by simpa using h.2⟩
  · intro m hm hc
    exact List.mem_filter.mpr ⟨hm, by simpa using hc⟩
  · intro h
    apply List.filter_eq_nil_iff.mpr
    intro a ha
    simpa using h a ha

/-- Witness for C7: `GHI` is reported for the example frame, and a frame
with no catalog column yields no metrics. -/
theorem claim_C7_witness :
    "GHI" ∈ get_available_metrics dfTop ∧ get_available_metrics dfNoCat = [] :=
  ⟨(claim_C7 dfTop).2.2.1 "GHI" (by decide) (by decide),
   (claim_C7 dfNoCat).2.2.2 (by decide)⟩

/-- The metric names kept by `get_summary_statistics` are exactly the
requested names present as columns, in request order. -/
theorem map_fst_filterMap_guard (df : DataFrame) (g : String → Stats) :
    ∀ l : List String,
      (l.filterMap (fun m => if m ∈ df.cols then some (m, g m) else none)).map
          Prod.fst =
        l.filter (fun m => decide (m ∈ df.cols))
  | [] => rfl
  | m :: t => by
    by_cases h : m ∈ df.cols <;>
      simp [List.filterMap_cons, List.filter_cons, h,
        map_fst_filterMap_guard df g t]

/-- C3: `get_summary_statistics` reports exactly the requested metrics
present as columns (absent names silently skipped); each reported record
carries the non-null count, the mean `sum/n` of the non-null values, the
middle of a sorted permutation of them as median, the sample variance with
divisor `n - 1` as squared standard deviation, and their least and greatest
elements as min and max; an empty or all-null column yields the missing
marker for every statistic and count 0 rather than raising. -/
theorem claim_C3 (df : DataFrame) (metrics : List String) :
    ((get_summary_statistics df metrics).map Prod.fst =
      metrics.filter (fun m => decide (m ∈ df.cols))) ∧
    (∀ m stats, (m, stats) ∈ get_summary_statistics df metrics →
      stats.count = (numsOf df m).length ∧
      (numsOf df m = [] → stats.mean = none ∧ stats.median = none ∧
        stats.std_sq = none ∧ stats.min = none ∧ stats.max = none ∧
        stats.count = 0) ∧
      (numsOf df m ≠ [] →
        stats.mean = some ((numsOf df m).sum / ((numsOf df m).length : ℚ))) ∧
      (numsOf df m ≠ [] → ∃ s : List ℚ, s.Perm (numsOf df m) ∧
        List.Sorted (fun a b : ℚ => a ≤ b) s ∧
        stats.median = some (if s.length % 2 = 1 then s.getD (s.length / 2) 0
          else (s.getD (s.length / 2 - 1) 0 + s.getD (s.length / 2) 0) / 2)) ∧
      (2 ≤ (numsOf df m).length → stats.std_sq =
        some (((numsOf df m).map
          (fun x =>
            (x - (numsOf df m).sum / ((numsOf df m).length : ℚ)) ^ 2)).sum /
          (((numsOf df m).length : ℚ) - 1))) ∧
      ((numsOf df m).length ≤ 1 → stats.std_sq = none) ∧
      (numsOf df m ≠ [] → ∃ a, stats.min = some a ∧ a ∈ numsOf df m ∧
        ∀ x ∈ numsOf df m, a ≤ x) ∧
      (numsOf df m ≠ [] → ∃ b, stats.max = some b ∧ b ∈ numsOf df m ∧
        ∀ x ∈ numsOf df m, x ≤ b)) := by
  constructor
  · exact map_fst_filterMap_guard df _ metrics
  · intro m stats hmem
    obtain ⟨b, _, hb⟩ := List.mem_filterMap.mp hmem
    by_cases hbc : b ∈ df.cols
    · rw [if_pos hbc] at hb
      injection hb with hb2
      cases hb2
      refine ⟨rfl, ?_, ?_, ?_, ?_, ?_, ?_, ?_⟩
      · intro hS
        simp [listMean, listMedian, listVar, seriesMin, seriesMax, hS]
      · intro hne
        have hlen : (numsOf df m).length ≠ 0 :=
          fun h => hne (List.length_eq_zero.mp h)
        simp [listMean, hlen]
      · intro hne
        have hlen : (numsOf df m).length ≠ 0 :=
          fun h => hne (List.length_eq_zero.mp h)
        refine ⟨List.insertionSort (fun a b => a ≤ b) (numsOf df m),
          List.perm_insertionSort _ _, List.sorted_insertionSort _ _, ?_⟩
        simp only [listMedian, List.length_insertionSort]
        rw [if_neg hlen]
        by_cases hpar : (numsOf df m).length % 2 = 1
        · rw [if_pos hpar, if_pos hpar]
        · rw [if_neg hpar, if_neg hpar]
      · intro h2
        have hgt : ¬ ((numsOf df m).length ≤ 1) := by omega
        simp [listVar, hgt]
      · intro h1
        simp [listVar, h1]
      · intro hne
        exact seriesMin_spec (numsOf df m) hne
      · intro hne
        exact seriesMax_spec (numsOf df m) hne
    · rw [if_neg hbc] at hb
      cases hb

/-- Witness for C3: on the column with values 10, 20, 30, the reported
record is a member of the result with mean the sum over the count and
concretely mean 20, min 10, max 30, count 3; the absent metric DNI is
skipped. -/
theorem claim_C3_witness :
    ("GHI", statsEx3) ∈ get_summary_statistics dfEx3 ["GHI", "DNI"] ∧
    statsEx3.count = (numsOf dfEx3 "GHI").length ∧
    statsEx3.mean =
      some ((numsOf dfEx3 "GHI").sum / ((numsOf dfEx3 "GHI").length : ℚ)) ∧
    statsEx3.mean = some 20 ∧ statsEx3.min = some 10 ∧
    statsEx3.max = some 30 ∧ statsEx3.count = 3 ∧
    (get_summary_statistics dfEx3 ["GHI", "DNI"]).map Prod.fst = ["GHI"] := by
  have hv : numsOf dfEx3 "GHI" = [10, 20, 30] := by decide
  have hmem : ("GHI", statsEx3) ∈ get_summary_statistics dfEx3 ["GHI", "DNI"] := by
    rw [show get_summary_statistics dfEx3 ["GHI", "DNI"] = [("GHI", statsEx3)]
      from rfl]
    exact List.mem_singleton.mpr rfl
  have h := (claim_C3 dfEx3 ["GHI", "DNI"]).2 "GHI" statsEx3 hmem
  have hne : numsOf dfEx3 "GHI" ≠ [] := by decide
  have hmean := h.2.2.1 hne
  refine ⟨hmem, h.1, hmean, ?_, by decide, by decide, by decide, ?_⟩
  · rw [hmean, hv]
    norm_num [List.sum_cons, List.sum_nil]
  · rw [(claim_C3 dfEx3 ["GHI", "DNI"]).1]
    decide

/-- C9: on a successful read with timestamp parsing on and a `Timestamp`
column present (at position `i`, with rows wide enough to hold it), loading
succeeds; no row is dropped, row labels, row widths and all other columns
are unchanged, and every `Timestamp` cell is replaced by its individual
parse result — a cell whose parse fails becomes null while its row is
kept. -/
theorem claim_C9 (env : Env) (path : String) (df : DataFrame)
    (hv : (validate_file_path env path).1 = true)
    (hr : env.read_csv path = Except.ok df)
    (i : Nat) (hi : findCol "Timestamp" df.cols = some i)
    (hwide : ∀ r ∈ df.rows, i < r.2.length) :
    ∃ df2, load_solar_data env path true = Except.ok df2 ∧
      df2.cols = df.cols ∧
      df2.rows.length = df.rows.length ∧
      ∀ j, j < df.rows.length →
        (df2.rows.getD j (0, [])).1 = (df.rows.getD j (0, [])).1 ∧
        (df2.rows.getD j (0, [])).2.length = (df.rows.getD j (0, [])).2.length ∧
        (df2.rows.getD j (0, [])).2.getD i none =
          (env.to_datetime_cell ((df.rows.getD j (0, [])).2.getD i none)).map
            Value.time ∧
        (env.to_datetime_cell ((df.rows.getD j (0, [])).2.getD i none) = none →
          (df2.rows.getD j (0, [])).2.getD i none = none) ∧
        ∀ k, k ≠ i → (df2.rows.getD j (0, [])).2.getD k none =
          (df.rows.getD j (0, [])).2.getD k none := by
  have hmemT : "Timestamp" ∈ df.cols := by
    by_contra hc
    rw [findCol_eq_none.mpr hc] at hi
    cases hi
  have hv2 : validate_file_path env path = (true, "") := by
    rcases validate_file_path_cases env path with h | h | h | h | h <;>
      rw [h] at hv ⊢ <;> simp_all
  have hload : load_solar_data env path true =
      Except.ok (parse_timestamp_col env df) := by
    simp [load_solar_data, hv2, hr, hmemT]
  have hpt : parse_timestamp_col env df = DataFrame.mk df.cols
      (df.rows.map (fun r =>
        (r.1, r.2.set i ((env.to_datetime_cell (r.2.getD i none)).map Value.time)))) := by
    simp [parse_timestamp_col, hi]
  refine ⟨parse_timestamp_col env df, hload, by rw [hpt], by rw [hpt]; simp, ?_⟩
  intro j hj
  have hj2 : j < (df.rows.map (fun r =>
      (r.1, r.2.set i ((env.to_datetime_cell (r.2.getD i none)).map
        Value.time)))).length := by
    simpa using hj
  have hgd : (parse_timestamp_col env df).rows.getD j (0, []) =
      ((df.rows.getD j (0, [])).1,
        (df.rows.getD j (0, [])).2.set i
          ((env.to_datetime_cell ((df.rows.getD j (0, [])).2.getD i none)).map
            Value.time)) := by
    rw [hpt]
    show (df.rows.map _).getD j (0, []) = _
    rw [List.getD_eq_getElem?_getD, List.getElem?_map,
      List.getElem?_eq_getElem hj, List.getD_eq_getElem?_getD,
      List.getElem?_eq_getElem hj]
    rfl
  have hmem : df.rows.getD j (0, []) ∈ df.rows := by
    rw [List.getD_eq_getElem?_getD, List.getElem?_eq_getElem hj]
    exact List.getElem_mem hj
  have hwj : i < (df.rows.getD j (0, [])).2.length := hwide _ hmem
  rw [hgd]
  refine ⟨rfl, by simp [List.length_set], ?_, ?_, ?_⟩
  · rw [List.getD_eq_getElem?_getD, List.getElem?_set_self hwj]
    rfl
  · intro hp
    rw [List.getD_eq_getElem?_getD, List.getElem?_set_self hwj, hp]
    rfl
  · intro k hk
    rw [List.getD_eq_getElem?_getD, List.getElem?_set_ne (Ne.symm hk)]
    exact (List.getD_eq_getElem?_getD _ _ _).symm

/-- Witness for C9: loading a frame whose `Timestamp` column holds one
parseable and one malformed string keeps both rows, parses the first cell
to an instant, and degrades the malformed cell to null. -/
theorem claim_C9_witness :
    (∃ df2, load_solar_data envParse "data.csv" true = Except.ok df2 ∧
      df2.rows.length = dfRaw.rows.length) ∧
    load_solar_data envParse "data.csv" true = Except.ok (DataFrame.mk
      ["Timestamp", "GHI"]
      [(0, [some (Value.time 42), some (Value.num 1)]),
       (1, [none, some (Value.num 2)])]) := by
  constructor
  · obtain ⟨df2, h1, _, h3, _⟩ :=
      claim_C9 envParse "data.csv" dfRaw (by decide) rfl 0 rfl
        (by decide)
    exact ⟨df2, h1, h3⟩
  · rfl

/-- Index reset renumbers the row labels as a fresh 0-based sequence. -/
theorem reset_index_map_fst (l : List Row) :
    (reset_index l).map Prod.fst = List.range l.length := by
  rw [reset_index, List.map_map]
  exact List.enum_map_fst l

/-- Index reset leaves the cell lists of the rows unchanged. -/
theorem reset_index_map_snd (l : List Row) :
    (reset_index l).map Prod.snd = l.map Prod.snd := by
  rw [reset_index, List.map_map]
  rw [show (Prod.snd ∘ fun p : Nat × Row => (p.1, p.2.2)) =
    (Prod.snd ∘ Prod.snd) from rfl]
  rw [← List.map_map, List.enum_map_snd]

/-- Index reset preserves the number of rows. -/
theorem reset_index_length (l : List Row) :
    (reset_index l).length = l.length := by
  rw [reset_index, List.length_map, List.enum_length]

/-- C2: `get_top_hours` returns the empty frame when the metric or the
`Timestamp` column is absent; otherwise its output keeps exactly the
`(Timestamp, metric)` columns, has `min top_n k` rows where `k` counts the
rows with a non-null metric value (so all of them when fewer than `top_n`
exist, and never a null one), carries freshly reset 0-based row labels, and
its cell lists are the first `top_n` entries of the ranking of the
non-null-metric rows — a permutation of them ordered strictly by larger
metric value first with ties in first-seen row order. -/
theorem claim_C2 (df : DataFrame) (metric : String) (top_n : Nat) :
    ((metric ∉ df.cols ∨ "Timestamp" ∉ df.cols) →
      get_top_hours df metric top_n = emptyFrame) ∧
    (∀ mi ti, findCol metric df.cols = some mi →
      findCol "Timestamp" df.cols = some ti →
      (get_top_hours df metric top_n).cols = ["Timestamp", metric] ∧
      (get_top_hours df metric top_n).rows.length =
        min top_n (nonNullRows mi df).length ∧
      (get_top_hours df metric top_n).rows.map Prod.fst =
        List.range (min top_n (nonNullRows mi df).length) ∧
      ∃ ranked : List (Nat × Row), ranked.Perm (nonNullRows mi df) ∧
        List.Pairwise (rankedBefore mi) ranked ∧
        (get_top_hours df metric top_n).rows.map Prod.snd =
          (ranked.take top_n).map
            (fun p => [p.2.2.getD ti none, p.2.2.getD mi none])) := by
  constructor
  · intro h
    rcases h with h | h
    · have hm := findCol_eq_none.mpr h
      cases ht : findCol "Timestamp" df.cols <;> simp [get_top_hours, hm, ht]
    · have ht := findCol_eq_none.mpr h
      cases hm : findCol metric df.cols <;> simp [get_top_hours, hm, ht]
  · intro mi ti hmi hti
    have hgt : get_top_hours df metric top_n = DataFrame.mk ["Timestamp", metric]
        (reset_index
          ((List.insertionSort (nlargestRel mi) (nonNullRows mi df)).take top_n |>.map
            (fun p => (p.2.1, [p.2.2.getD ti none, p.2.2.getD mi none])))) := by
      simp [get_top_hours, hmi, hti]
    have hper : (List.insertionSort (nlargestRel mi) (nonNullRows mi df)).Perm
        (nonNullRows mi df) := List.perm_insertionSort _ _
    have hsor : List.Pairwise (nlargestRel mi)
        (List.insertionSort (nlargestRel mi) (nonNullRows mi df)) :=
      List.sorted_insertionSort _ _
    have hkey : ∀ p ∈ nonNullRows mi df,
        (numVal (p.2.2.getD mi none)).isSome = true := by
      intro p hp
      have hp' : p ∈ df.rows.enum.filter
          (fun q => (numVal (q.2.2.getD mi none)).isSome) := hp
      exact @List.of_mem_filter (Nat × Row)
        (fun q => (numVal (q.2.2.getD mi none)).isSome) p df.rows.enum hp'
    have hnd0 : ((nonNullRows mi df).map Prod.fst).Nodup :=
      List.Nodup.sublist (List.Sublist.map Prod.fst (List.filter_sublist _))
        (List.nodup_enum_map_fst _)
    have hndsort :
        ((List.insertionSort (nlargestRel mi) (nonNullRows mi df)).map
          Prod.fst).Nodup :=
      ((hper.map Prod.fst).nodup_iff).mpr hnd0
    have hneq : List.Pairwise (fun a b : Nat × Row => a.1 ≠ b.1)
        (List.insertionSort (nlargestRel mi) (nonNullRows mi df)) :=
      List.pairwise_map.mp hndsort
    have hpair : List.Pairwise (rankedBefore mi)
        (List.insertionSort (nlargestRel mi) (nonNullRows mi df)) := by
      refine List.Pairwise.imp_of_mem ?_ (List.Pairwise.and hsor hneq)
      intro a b ha hb hab
      have hia := hkey a (hper.mem_iff.mp ha)
      have hib := hkey b (hper.mem_iff.mp hb)
      obtain ⟨qa, hqa⟩ := Option.isSome_iff_exists.mp hia
      obtain ⟨qb, hqb⟩ := Option.isSome_iff_exists.mp hib
      have ha' : keyOf mi a = qa := by
        simp only [keyOf, hqa, Option.getD_some]
      have hb' : keyOf mi b = qb := by
        simp only [keyOf, hqb, Option.getD_some]
      refine ⟨qa, qb, hqa, hqb, ?_⟩
      rcases hab.1 with hlt | ⟨heq, hle⟩
      · left
        rwa [ha', hb'] at hlt
      · right
        refine ⟨by rw [← ha', ← hb']; exact heq, lt_of_le_of_ne hle hab.2⟩
    refine ⟨by rw [hgt], ?_, ?_, ?_⟩
    · rw [hgt]
      show (reset_index _).length = _
      rw [reset_index_length, List.length_map, List.length_take,
        hper.length_eq]
    · rw [hgt]
      show (reset_index _).map Prod.fst = _
      rw [reset_index_map_fst, List.length_map, List.length_take,
        hper.length_eq]
    · refine ⟨List.insertionSort (nlargestRel mi) (nonNullRows mi df),
        hper, hpair, ?_⟩
      rw [hgt]
      show (reset_index _).map Prod.snd = _
      rw [reset_index_map_snd, List.map_map]
      rfl

/-- Witness for C2: the specification's four-row example keeps the two
value-9 rows in first-seen order with reset labels; the empty frame and a
frame without `Timestamp` give the empty frame. -/
theorem claim_C2_witness :
    get_top_hours emptyFrame "GHI" 2 = emptyFrame ∧
    get_top_hours dfTop "GHI" 2 = DataFrame.mk ["Timestamp", "GHI"]
      [(0, [some (Value.time 2), some (Value.num 9)]),
       (1, [some (Value.time 3), some (Value.num 9)])] ∧
    get_top_hours dfNoTs "GHI" 2 = emptyFrame :=
  ⟨(claim_C2 emptyFrame "GHI" 2).1 (Or.inl (by decide)),
   by decide,
   (claim_C2 dfNoTs "GHI" 2).1 (Or.inr (by decide))⟩

end Solar
